import Mathlib

/-!
Verification of the ArchiveBox plugin subsystem excerpt.

The development shallowly embeds the Python sources:
  archivebox/plugantic/base_extractor.py
  archivebox/plugins_pkg/playwright/binproviders.py
  archivebox/plugins_auth/ldap/settings.py

Python strings are modelled as Lean `String` values (internally `List Char`),
Python `None` as `Option`, Python exceptions (`assert`, `raise`) as `Except`,
and filesystem or subprocess observations (glob results, `$PATH` lookups,
captured stdout/stderr, exit codes) as explicit parameters, so every embedded
operation is a total, executable function of its inputs.
-/

/-! ## Python string primitives -/

/-- Characters treated as whitespace by Python `str.strip()`. -/
def pyIsWS (c : Char) : Bool :=
  c = ' ' || c = '\t' || c = '\n' || c = '\r' || c = '\x0b' || c = '\x0c'

/-- Drop whitespace-like characters from the right end of a character list. -/
def dropRightWhileL (p : Char → Bool) (l : List Char) : List Char :=
  (l.reverse.dropWhile p).reverse

/-- Model of Python `str.strip()` on a character list. -/
def pyStripL (l : List Char) : List Char :=
  dropRightWhileL pyIsWS (l.dropWhile pyIsWS)

/-- Model of Python `str.strip()`. -/
def pyStrip (s : String) : String :=
  ⟨pyStripL s.data⟩

/-- Model of Python `str.split(sep)` for a single-character separator.
Like Python, splitting the empty string yields one empty field. -/
def splitOnCharL (sep : Char) : List Char → List (List Char)
  | [] => [[]]
  | c :: rest =>
    if c = sep then [] :: splitOnCharL sep rest
    else
      match splitOnCharL sep rest with
      | [] => [[c]]
      | h :: t => (c :: h) :: t

/-- Whether the first list is an initial segment of the second. -/
def leadsWith : List Char → List Char → Bool
  | [], _ => true
  | _ :: _, [] => false
  | p :: ps, c :: cs => p = c && leadsWith ps cs

/-- Model of Python `pat in s` substring containment on character lists. -/
def containsSub : List Char → List Char → Bool
  | [], pat => pat.isEmpty
  | c :: rest, pat => leadsWith pat (c :: rest) || containsSub rest pat

/-- Model of Python `pat in s` substring containment on strings. -/
def containsStr (s pat : String) : Bool :=
  containsSub s.data pat.data

/-- Model of Python `str.lower()` (ASCII case folding). -/
def lowerStr (s : String) : String :=
  ⟨s.data.map Char.toLower⟩

/-- Model of Python `s.rsplit(sep, 1)[-1]` for separator `/`: the final
path segment of a path-like string. -/
def lastSegStr (s : String) : String :=
  ⟨(splitOnCharL '/' s.data).getLastD []⟩

/-- Fuel-driven worker for multi-character split; fuel is the input length,
which always suffices because each step consumes at least one character. -/
def splitOnFuel (pat : List Char) : Nat → List Char → List (List Char)
  | _, [] => [[]]
  | 0, l => [l]
  | fuel + 1, c :: rest =>
    if leadsWith pat (c :: rest) then
      [] :: splitOnFuel pat fuel (List.drop (pat.length - 1) rest)
    else
      match splitOnFuel pat fuel rest with
      | [] => [[c]]
      | h :: t => (c :: h) :: t

/-- Model of Python `str.split(sep)` for a multi-character separator. -/
def splitOnL (pat l : List Char) : List (List Char) :=
  if pat.isEmpty then [l] else splitOnFuel pat l.length l

/-- Model of `pathlib.Path.__truediv__`: joining with an absolute right-hand
side discards the left-hand side entirely. -/
def pathJoin (dir rel : String) : String :=
  if leadsWith ['/'] rel.data then rel else dir ++ "/" ++ rel

/-- Lexicographic comparison of character lists by code point, as Python
compares strings. -/
def lexLe : List Char → List Char → Bool
  | [], _ => true
  | _ :: _, [] => false
  | a :: as, b :: bs => if a = b then lexLe as bs else decide (a.toNat < b.toNat)

/-- Lexicographic string comparison by code point. -/
def strLe (a b : String) : Bool :=
  lexLe a.data b.data

/-- Insert a string into a lexicographically sorted list. -/
def insertSorted (x : String) : List String → List String
  | [] => [x]
  | y :: ys => if strLe x y then x :: y :: ys else y :: insertSorted x ys

/-- Model of Python `sorted` on lists of strings.  Because `strLe` is a total
antisymmetric order, the sorted output is unique, so any sorting algorithm
models Python `sorted` extensionally. -/
def sortStrs (l : List String) : List String :=
  l.foldr insertSorted []

/-- Assoc-list lookup, modelling a Python dict keyed by strings. -/
def lookupC : List (String × String) → String → Option String
  | [], _ => none
  | (k, v) :: rest, key => if k = key then some v else lookupC rest key

/-- A Python generator object, as returned by `pathlib.Path.glob`. -/
structure PyGen where
  items : List String

/-- Truthiness of a generator object in Python: a generator is an object with
no `__bool__`/`__len__`, so `bool(gen)` is `True` regardless of whether the
generator would yield any items. -/
def pyGenBool (_g : PyGen) : Bool :=
  true

/-! ## Subprocess results -/

/-- The observable outcome of one finished subprocess: exit code and decoded
captured stdout/stderr (`archivebox` decodes the byte buffers to text). -/
structure ProcResult where
  returncode : Int
  stdout : String
  stderr : String
deriving DecidableEq

/-! ## base_extractor.py -/

/-- Embedding of `no_empty_args` (base_extractor.py lines 31-33): asserts
every argument has nonzero length; an `AssertionError` inside a pydantic
validator fails model construction. -/
def no_empty_args (args : List String) : Except String (List String) :=
  if args.all (fun a => !a.isEmpty) then .ok args else .error "AssertionError: no_empty_args"

/-- Embedding of the `BaseExtractor` pydantic model's data fields
(base_extractor.py lines 41-52).  `args` stays `Option` to mirror
`Optional[CmdArgsList] = None`. -/
structure BaseExtractor where
  name : String
  binary : String
  default_args : List String
  extra_args : List String
  args : Option (List String)
deriving DecidableEq

/-- Embedding of `BaseExtractor.validate_model` (lines 54-58): after field
validation, a missing `args` is materialized as `default_args ++ extra_args`. -/
def BaseExtractor.validate_model (e : BaseExtractor) : BaseExtractor :=
  if e.args = none then { e with args := some (e.default_args ++ e.extra_args) } else e

/-- Pydantic construction of a `BaseExtractor`: each `CmdArgsList` field runs
`no_empty_args` (first validation failure aborts construction), then the
`mode='after'` validator `validate_model` runs. -/
def BaseExtractor.construct (name binary : String) (default_args extra_args : List String)
    (args : Option (List String)) : Except String BaseExtractor :=
  match no_empty_args default_args with
  | .error m => .error m
  | .ok d =>
    match no_empty_args extra_args with
    | .error m => .error m
    | .ok ex =>
      match args with
      | none =>
        .ok (BaseExtractor.validate_model
          { name := name, binary := binary, default_args := d, extra_args := ex, args := none })
      | some l =>
        match no_empty_args l with
        | .error m => .error m
        | .ok v =>
          .ok (BaseExtractor.validate_model
            { name := name, binary := binary, default_args := d, extra_args := ex,
              args := some v })

/-- Embedding of `BaseExtractor.get_output_path` (lines 68-69): the output
directory is simply named after the extractor. -/
def BaseExtractor.get_output_path (e : BaseExtractor) : String :=
  e.name

/-- Embedding of `BaseExtractor.should_extract` (lines 71-75).  The directory
contents are an explicit parameter: `dirGlobMatches` is the list of entries
the glob `*.*` over the output directory would yield (empty for an empty or
nonexistent directory).  The Python code tests `if output_dir.glob('*.*')`,
i.e. the truthiness of the generator object itself, not of its contents. -/
def BaseExtractor.should_extract (_e : BaseExtractor) (dirGlobMatches : List String) : Bool :=
  if pyGenBool ⟨dirGlobMatches⟩ then false else true

/-- Embedding of `proc.stdout.decode().strip().split('\n')[-1]`
(base_extractor.py line 86) on character lists. -/
def pyLastLineL (l : List Char) : List Char :=
  (splitOnCharL '\n' (pyStripL l)).getLastD []

/-- Embedding of `proc.stdout.decode().strip().split('\n')[-1]` on strings. -/
def pyLastLine (s : String) : String :=
  ⟨pyLastLineL s.data⟩

/-- The structured record returned by `BaseExtractor.extract`
(base_extractor.py lines 84-92). -/
structure ExtractionResult where
  status : String
  output : String
  output_files : List String
  stdout : String
  stderr : String
  returncode : Int
deriving DecidableEq

/-- Embedding of `BaseExtractor.extract` (lines 78-92).  The subprocess
outcome `proc` and the post-run glob of the output directory
`outputDirFiles` are explicit parameters; the function totally and
structurally packages them into an `ExtractionResult`, raising nothing. -/
def BaseExtractor.extract (_e : BaseExtractor) (_url : String) (proc : ProcResult)
    (outputDirFiles : List String) : ExtractionResult :=
  { status := if proc.returncode = 0 then "succeeded" else "failed"
    output := pyLastLine proc.stdout
    output_files := outputDirFiles
    stdout := pyStrip proc.stdout
    stderr := pyStrip proc.stderr
    returncode := proc.returncode }

/-- The command vector built by `extract` (line 81): the url followed by the
materialized argument list. -/
def BaseExtractor.extractCmd (e : BaseExtractor) (url : String) : List String :=
  match e.args with
  | some a => url :: a
  | none => url :: (e.default_args ++ e.extra_args)

/-- Modelled from the spec: the last non-empty line of a text, as the words
of the specification describe the `output` field — split the text into lines
and take the last line that is not the empty string (empty string when there
is none).  Used to compare the specification's wording with the code. -/
def lastNonEmptyLineL (l : List Char) : List Char :=
  ((splitOnCharL '\n' l).filter (fun seg => !seg.isEmpty)).getLastD []

/-- Modelled from the spec: string version of `lastNonEmptyLineL`. -/
def lastNonEmptyLine (s : String) : String :=
  ⟨lastNonEmptyLineL s.data⟩

/-! ## plugins_auth/ldap/settings.py -/

/-- Truthiness of a Python `str`-typed field defaulted to `None`: falsy when
`None` or the empty string. -/
def pyTruthyOpt : Option String → Bool
  | none => false
  | some s => !s.isEmpty

/-- Embedding of the `LdapConfig` pydantic model's data fields
(settings.py lines 28-40); string fields default to `None`. -/
structure LdapConfig where
  LDAP_ENABLED : Bool := false
  LDAP_SERVER_URI : Option String := none
  LDAP_BIND_DN : Option String := none
  LDAP_BIND_PASSWORD : Option String := none
  LDAP_USER_BASE : Option String := none
  LDAP_USER_FILTER : Option String := none
  LDAP_CREATE_SUPERUSER : Bool := false
  LDAP_USERNAME_ATTR : Option String := none
  LDAP_FIRSTNAME_ATTR : Option String := none
  LDAP_LASTNAME_ATTR : Option String := none
  LDAP_EMAIL_ATTR : Option String := none
deriving DecidableEq

/-- The warning written to stderr when LDAP is enabled but the ldap packages
are not importable (settings.py line 45). -/
def ldapMissingLibWarning : String :=
  "[X] Error: Found LDAP=True config but LDAP packages not installed. You may need to run: pip install archivebox[ldap]"

/-- The assertion message of `validate_ldap_config` (settings.py line 57). -/
def ldapAssertMsg : String :=
  "AssertionError: LDAP_* config options must all be set if LDAP_ENABLED=True"

/-- Embedding of `LdapConfig.validate_ldap_config` (settings.py lines 42-58).
`ldapLibAvailable` models whether the module-level `import ldap` succeeded.
The result carries the possibly-downgraded config together with the warnings
written to stderr; a failed `assert` fails construction. -/
def LdapConfig.validate_ldap_config (c : LdapConfig) (ldapLibAvailable : Bool) :
    Except String (LdapConfig × List String) :=
  let downgraded := c.LDAP_ENABLED && !ldapLibAvailable
  let c1 := if downgraded then { c with LDAP_ENABLED := false } else c
  let warnings := if downgraded then [ldapMissingLibWarning] else []
  if c1.LDAP_ENABLED &&
      !(pyTruthyOpt c1.LDAP_SERVER_URI && pyTruthyOpt c1.LDAP_BIND_DN &&
        pyTruthyOpt c1.LDAP_BIND_PASSWORD && pyTruthyOpt c1.LDAP_USER_BASE &&
        pyTruthyOpt c1.LDAP_USER_FILTER) then
    .error ldapAssertMsg
  else
    .ok (c1, warnings)

/-- Embedding of the `LdapConfig.AUTHENTICATION_BACKENDS` property
(settings.py lines 69-74): a constant two-element list. -/
def LdapConfig.AUTHENTICATION_BACKENDS (_c : LdapConfig) : List String :=
  ["django.contrib.auth.backends.ModelBackend", "django_auth_ldap.backend.LDAPBackend"]

/-! ## plugins_pkg/playwright/binproviders.py -/

/-- The filesystem observations the playwright provider consumes: the raw
glob results under the playwright browsers cache directory, and the result
of `bin_abspath('google-chrome-stable', PATH=env.PATH)`. -/
structure PwFs where
  globResults : List String
  systemChromeStable : Option String

/-- The distinct exception sites of the playwright provider handlers. -/
inductive PwErr where
  | onlyChromeAssert
  | setupAssert
  | installerNotFound
  | installFailed (returncode : Int) (packages : List String)
deriving DecidableEq

/-- The per-path predicate of the non-darwin loop of `installed_browser_bins`
(binproviders.py lines 100-106): skip paths mentioning `xdg-settings` or
`ffmpeg`, keep paths containing `/chrom` whose final segment, lowercased,
contains `chrom`. -/
def browserBinFilter (p : String) : Bool :=
  !(containsStr p "xdg-settings") && !(containsStr p "ffmpeg") &&
    containsStr p "/chrom" && containsStr (lowerStr (lastSegStr p)) "chrom"

/-- Embedding of `PlaywrightBinProvider.installed_browser_bins`
(binproviders.py lines 85-107).  The glob results are an explicit parameter;
on darwin the sorted glob is returned as-is, otherwise the sorted glob is
filtered by `browserBinFilter`. -/
def installed_browser_bins (isDarwin : Bool) (globResults : List String) : List String :=
  if isDarwin then sortStrs globResults
  else (sortStrs globResults).filter browserBinFilter

/-- Embedding of `PlaywrightBinProvider.default_abspath_handler`
(binproviders.py lines 109-129).  The class-level `_browser_abspaths` dict is
threaded as the assoc list `cache`; the result pairs the resolved path
(`None` for not found) with the updated cache. -/
def default_abspath_handler (isDarwin : Bool) (fs : PwFs)
    (cache : List (String × String)) (bin_name : String) :
    Except PwErr (Option String × List (String × String)) :=
  if bin_name ≠ "chrome" then .error .onlyChromeAssert
  else
    match lookupC cache bin_name with
    | some p => .ok (some p, cache)
    | none =>
      match ((installed_browser_bins isDarwin fs.globResults).filter
          (fun p => containsStr p bin_name)).getLast? with
      | some newest => .ok (some newest, (bin_name, newest) :: cache)
      | none =>
        match fs.systemChromeStable with
        | some abspath => .ok (some abspath, (bin_name, abspath) :: cache)
        | none => .ok (none, cache)

/-- The resolved path of an abspath-handler result, when it produced one. -/
def resolvedPath (r : Except PwErr (Option String × List (String × String))) : Option String :=
  match r with
  | .ok (p, _) => p
  | .error _ => none

/-- The line filter of `default_install_handler` (binproviders.py
lines 162-168): keep stdout lines containing `/chrom` whose final path
segment, lowercased, contains `chrom`, excluding `xdg-settings` and
`ffmpeg` lines. -/
def installOutputLineFilter (line : String) : Bool :=
  containsStr line "/chrom" && containsStr (lowerStr (lastSegStr line)) "chrom" &&
    !(containsStr line "xdg-settings") && !(containsStr line "ffmpeg")

/-- The value returned by `default_install_handler` (binproviders.py
line 175): `(proc.stderr.strip() + "\n" + proc.stdout.strip()).strip()`. -/
def installCombinedOutput (p : ProcResult) : String :=
  pyStrip (pyStrip p.stderr ++ "\n" ++ pyStrip p.stdout)

/-- The cache write of `default_install_handler` (binproviders.py
lines 162-173): take the first stdout line passing
`installOutputLineFilter`, split it on the browsers-dir string, resolve the
final piece against the browsers dir, and cache it only if it is an
executable file; no matching line or a failed check writes nothing. -/
def installCacheEntry (browsersDir : String) (isExecutableFile : String → Bool)
    (bin_name : String) (installProc : ProcResult) : Option (String × String) :=
  match ((splitOnCharL '\n' (pyStripL installProc.stdout.data)).map
      (fun l => String.mk l)).filter installOutputLineFilter with
  | [] => none
  | line :: _ =>
    if isExecutableFile
        (pathJoin browsersDir (String.mk ((splitOnL browsersDir.data line.data).getLastD []))) then
      some (bin_name,
        pathJoin browsersDir (String.mk ((splitOnL browsersDir.data line.data).getLastD [])))
    else none

/-- The diagnostics printed by the tolerated `install-deps` sub-step
(binproviders.py lines 146-151): stripped stdout and stderr when the
sub-step ran (non-darwin) and exited non-zero. -/
def installDepsLog (isDarwin : Bool) (depsProc : ProcResult) : List String :=
  if !isDarwin && depsProc.returncode ≠ 0 then
    [pyStrip depsProc.stdout, pyStrip depsProc.stderr]
  else []

/-- Embedding of `PlaywrightBinProvider.default_install_handler`
(binproviders.py lines 131-175).  Parameters model the environment:
`pipOk` the `setup()` assertion about the pip provider, `installerAbspath`
the computed `INSTALLER_BIN_ABSPATH`, `isExecutableFile` the
`os.path.isfile ∧ os.access(..., X_OK)` check, and `depsProc`/`installProc`
the outcomes of the `install-deps` and `install` subprocesses.  The result
pairs the printed diagnostic lines with either a raised exception or the
returned output text plus the cache entry written (if any). -/
def default_install_handler (isDarwin : Bool) (pipOk : Bool)
    (installerAbspath : Option String) (browsersDir : String)
    (isExecutableFile : String → Bool) (bin_name : String)
    (packages : Option (List String)) (depsProc installProc : ProcResult) :
    List String × Except PwErr (String × Option (String × String)) :=
  if !pipOk then ([], .error .setupAssert)
  else if bin_name ≠ "chrome" then ([], .error .onlyChromeAssert)
  else
    match installerAbspath with
    | none => ([], .error .installerNotFound)
    | some _ =>
      if installProc.returncode ≠ 0 then
        (installDepsLog isDarwin depsProc ++
            [pyStrip installProc.stdout, pyStrip installProc.stderr],
          .error (.installFailed installProc.returncode (packages.getD ["chromium"])))
      else
        (installDepsLog isDarwin depsProc,
          .ok (installCombinedOutput installProc,
            installCacheEntry browsersDir isExecutableFile bin_name installProc))

/-! ## Sample data and decidability -/

/-- The sample extractor of the spec's first scenario, as `validate_model`
materializes it: default args `["--no-check-certificate"]`, no extra args. -/
def wgetExtractor : BaseExtractor :=
  { name := "wget", binary := "wget", default_args := ["--no-check-certificate"],
    extra_args := [], args := some ["--no-check-certificate"] }

instance {e a : Type} [DecidableEq e] [DecidableEq a] : DecidableEq (Except e a) := fun x y =>
  match x, y with
  | .ok v, .ok w =>
    if h : v = w then .isTrue (by rw [h]) else .isFalse (by intro hc; cases hc; exact h rfl)
  | .error v, .error w =>
    if h : v = w then .isTrue (by rw [h]) else .isFalse (by intro hc; cases hc; exact h rfl)
  | .ok _, .error _ => .isFalse (by intro hc; cases hc)
  | .error _, .ok _ => .isFalse (by intro hc; cases hc)

/-! ## Helper lemmas -/

theorem splitOnCharL_ne_nil (sep : Char) (l : List Char) : splitOnCharL sep l ≠ [] := by
  cases l with
  | nil => simp [splitOnCharL]
  | cons c rest =>
    simp only [splitOnCharL]
    split
    · simp
    · split <;> simp

theorem splitOnCharL_cons (sep c : Char) (rest : List Char) :
    splitOnCharL sep (c :: rest) =
      if c = sep then [] :: splitOnCharL sep rest
      else
        match splitOnCharL sep rest with
        | [] => [[c]]
        | h :: t => (c :: h) :: t := rfl

theorem head?_dropWhile_not (p : Char → Bool) (l : List Char) (c : Char)
    (h : (l.dropWhile p).head? = some c) : p c = false := by
  induction l with
  | nil => simp [List.dropWhile] at h
  | cons x xs ih =>
    rw [List.dropWhile_cons] at h
    by_cases hp : p x = true
    · rw [if_pos hp] at h
      exact ih h
    · rw [if_neg hp] at h
      simp at h
      rw [← h]
      simpa using hp

theorem pyStripL_getLast?_not_ws (l : List Char) (c : Char)
    (h : (pyStripL l).getLast? = some c) : pyIsWS c = false := by
  unfold pyStripL dropRightWhileL at h
  rw [List.getLast?_reverse] at h
  exact head?_dropWhile_not pyIsWS _ c h

theorem splitOnCharL_getLast?_ne_nil (sep : Char) (l : List Char) (c : Char)
    (hlast : l.getLast? = some c) (hc : c ≠ sep) :
    ∃ seg, (splitOnCharL sep l).getLast? = some seg ∧ seg ≠ [] := by
  induction l with
  | nil => simp at hlast
  | cons a rest ih =>
    cases rest with
    | nil =>
      have hac : a = c := by simpa using hlast
      rw [splitOnCharL_cons, if_neg (hac ▸ hc)]
      exact ⟨[a], by simp [splitOnCharL], by simp⟩
    | cons b rest2 =>
      rw [List.getLast?_cons_cons] at hlast
      obtain ⟨seg, hseg, hne⟩ := ih hlast
      by_cases ha : a = sep
      · refine ⟨seg, ?_, hne⟩
        rw [splitOnCharL_cons, if_pos ha]
        cases hS : splitOnCharL sep (b :: rest2) with
        | nil => exact absurd hS (splitOnCharL_ne_nil sep _)
        | cons s0 S2 =>
          rw [List.getLast?_cons_cons]
          rw [hS] at hseg
          exact hseg
      · rw [splitOnCharL_cons, if_neg ha]
        cases hS : splitOnCharL sep (b :: rest2) with
        | nil => exact absurd hS (splitOnCharL_ne_nil sep _)
        | cons s0 S2 =>
          rw [hS] at hseg
          cases S2 with
          | nil =>
            exact ⟨a :: s0, by simp, by simp⟩
          | cons s1 S3 =>
            rw [List.getLast?_cons_cons] at hseg
            refine ⟨seg, ?_, hne⟩
            show ((a :: s0) :: s1 :: S3).getLast? = some seg
            rw [List.getLast?_cons_cons]
            exact hseg

theorem filter_getLast?_of_pred {α : Type} (p : α → Bool) (l : List α) (a : α)
    (h : l.getLast? = some a) (hp : p a = true) : (l.filter p).getLast? = some a := by
  rw [← List.head?_reverse] at h
  rw [← List.head?_reverse, ← List.filter_reverse]
  cases hrev : l.reverse with
  | nil => rw [hrev] at h; simp at h
  | cons x xs =>
    rw [hrev] at h
    simp at h
    subst h
    simp [List.filter, hp]

theorem pyLastLineL_eq_lastNonEmpty (l : List Char) :
    pyLastLineL l = lastNonEmptyLineL (pyStripL l) := by
  unfold pyLastLineL lastNonEmptyLineL
  cases h : pyStripL l with
  | nil => rfl
  | cons a as =>
    rw [← h]
    have hne : pyStripL l ≠ [] := by rw [h]; simp
    obtain ⟨c, hlast⟩ : ∃ c, (pyStripL l).getLast? = some c := by
      rw [h]
      exact ⟨(a :: as).getLast (by simp), List.getLast?_eq_getLast _ _⟩
    have hws := pyStripL_getLast?_not_ws l c hlast
    have hcn : c ≠ '\n' := by
      intro hceq
      rw [hceq] at hws
      exact absurd hws (by decide)
    obtain ⟨seg, hseg, hsegne⟩ := splitOnCharL_getLast?_ne_nil '\n' (pyStripL l) c hlast hcn
    have hpred : (!seg.isEmpty) = true := by
      cases seg with
      | nil => exact absurd rfl hsegne
      | cons x xs => simp
    rw [List.getLastD_eq_getLast?, List.getLastD_eq_getLast?, hseg,
      filter_getLast?_of_pred _ _ seg hseg hpred]

theorem lexLe_refl (l : List Char) : lexLe l l = true := by
  induction l with
  | nil => rfl
  | cons a as ih => simp [lexLe, ih]

theorem char_eq_of_toNat_eq {a b : Char} (h : a.toNat = b.toNat) : a = b := by
  apply Char.ext
  exact UInt32.toNat.inj h

theorem lexLe_total (a b : List Char) : lexLe a b = true ∨ lexLe b a = true := by
  induction a generalizing b with
  | nil => exact Or.inl rfl
  | cons x xs ih =>
    cases b with
    | nil => exact Or.inr rfl
    | cons y ys =>
      by_cases hxy : x = y
      · subst hxy
        rcases ih ys with h | h
        · exact Or.inl (by simp [lexLe, h])
        · exact Or.inr (by simp [lexLe, h])
      · have hne : x.toNat ≠ y.toNat := fun hn => hxy (char_eq_of_toNat_eq hn)
        rcases Nat.lt_or_ge x.toNat y.toNat with hlt | hge
        · exact Or.inl (by simp [lexLe, hxy, hlt])
        · have hgt : y.toNat < x.toNat := Nat.lt_of_le_of_ne hge (Ne.symm hne)
          have hyx : ¬ y = x := fun he => hxy he.symm
          exact Or.inr (by simp [lexLe, hyx, hgt])

theorem lexLe_trans (a b c : List Char) (h1 : lexLe a b = true) (h2 : lexLe b c = true) :
    lexLe a c = true := by
  induction a generalizing b c with
  | nil => rfl
  | cons x xs ih =>
    cases b with
    | nil => simp [lexLe] at h1
    | cons y ys =>
      cases c with
      | nil => simp [lexLe] at h2
      | cons z zs =>
        simp only [lexLe] at h1 h2 ⊢
        by_cases hxy : x = y
        · subst hxy
          rw [if_pos rfl] at h1
          by_cases hxz : x = z
          · subst hxz
            rw [if_pos rfl] at h2 ⊢
            exact ih ys zs h1 h2
          · rw [if_neg hxz] at h2 ⊢
            exact h2
        · rw [if_neg hxy] at h1
          by_cases hyz : y = z
          · subst hyz
            rw [if_neg hxy]
            exact h1
          · rw [if_neg hyz] at h2
            have hxz : x ≠ z := by
              intro he
              subst he
              simp at h1 h2
              omega
            rw [if_neg hxz]
            simp at h1 h2 ⊢
            omega

theorem strLe_refl (a : String) : strLe a a = true := lexLe_refl a.data

theorem strLe_total (a b : String) : strLe a b = true ∨ strLe b a = true :=
  lexLe_total a.data b.data

theorem strLe_trans (a b c : String) (h1 : strLe a b = true) (h2 : strLe b c = true) :
    strLe a c = true := lexLe_trans a.data b.data c.data h1 h2

theorem mem_insertSorted (x a : String) (l : List String) :
    a ∈ insertSorted x l ↔ a = x ∨ a ∈ l := by
  induction l with
  | nil => simp [insertSorted]
  | cons y ys ih =>
    simp only [insertSorted]
    split
    · simp
    · rw [List.mem_cons, ih, List.mem_cons]
      tauto

theorem pairwise_insertSorted (x : String) (l : List String)
    (h : l.Pairwise (fun a b => strLe a b = true)) :
    (insertSorted x l).Pairwise (fun a b => strLe a b = true) := by
  induction l with
  | nil => simp [insertSorted]
  | cons y ys ih =>
    rw [List.pairwise_cons] at h
    obtain ⟨h1, h2⟩ := h
    simp only [insertSorted]
    split
    · rename_i hxy
      rw [List.pairwise_cons]
      refine ⟨?_, List.pairwise_cons.mpr ⟨h1, h2⟩⟩
      intro z hz
      rcases List.mem_cons.mp hz with hzy | hzys
      · subst hzy
        exact hxy
      · exact strLe_trans x y z hxy (h1 z hzys)
    · rename_i hxy
      have hyx : strLe y x = true := by
        rcases strLe_total x y with ht | ht
        · exact absurd ht hxy
        · exact ht
      rw [List.pairwise_cons]
      refine ⟨?_, ih h2⟩
      intro z hz
      rcases (mem_insertSorted x z ys).mp hz with hzx | hzys
      · subst hzx
        exact hyx
      · exact h1 z hzys

theorem pairwise_sortStrs (l : List String) :
    (sortStrs l).Pairwise (fun a b => strLe a b = true) := by
  induction l with
  | nil => simp [sortStrs]
  | cons x xs ih => exact pairwise_insertSorted x (sortStrs xs) ih

theorem pairwise_getLast_max (l : List String) (m : String)
    (hp : l.Pairwise (fun a b => strLe a b = true)) (hlast : l.getLast? = some m) :
    ∀ c ∈ l, strLe c m = true := by
  induction l with
  | nil => simp at hlast
  | cons a as ih =>
    cases as with
    | nil =>
      simp at hlast
      subst hlast
      intro c hc
      simp at hc
      subst hc
      exact strLe_refl c
    | cons b bs =>
      rw [List.getLast?_cons_cons] at hlast
      rw [List.pairwise_cons] at hp
      obtain ⟨h1, h2⟩ := hp
      intro c hc
      rcases List.mem_cons.mp hc with hca | hcr
      · subst hca
        exact h1 m (List.mem_of_getLast?_eq_some hlast)
      · exact ih h2 hlast c hcr

theorem no_empty_args_ok (xs ys : List String) (h : no_empty_args xs = .ok ys) :
    ys = xs ∧ ∀ s ∈ xs, s ≠ "" := by
  unfold no_empty_args at h
  split at h
  · rename_i hall
    injection h with h2
    subst h2
    refine ⟨rfl, ?_⟩
    intro s hs hemp
    have hpred := List.all_eq_true.mp hall s hs
    subst hemp
    exact absurd hpred (by decide)
  · cases h

theorem no_empty_args_error_of_mem (xs : List String) (h : "" ∈ xs) :
    no_empty_args xs = .error "AssertionError: no_empty_args" := by
  unfold no_empty_args
  rw [if_neg]
  intro hall
  have hpred := List.all_eq_true.mp hall "" h
  exact absurd hpred (by decide)

/-! ## Claim theorems -/

/-- C1 (code bug): for every extractor and every observed content of the
output directory — in particular the empty glob result of an empty or
nonexistent directory — `should_extract` returns `false`.  The Python code
tests `if output_dir.glob('*.*')`, the truthiness of the generator object
itself, which is always `True`, so the claimed `true` result on an empty
directory never happens. -/
theorem c1_should_extract_always_false :
    BaseExtractor.should_extract wgetExtractor [] = false
    ∧ ∀ (e : BaseExtractor) (files : List String),
        BaseExtractor.should_extract e files = false :=
  ⟨rfl, fun _ _ => rfl⟩

/-- C2 (confirmed): a successfully constructed extractor has a materialized
argument list containing no empty string, and construction fails whenever
the default, extra, or explicit argument list contains an empty string. -/
theorem c2_materialized_args_no_empty_string (n b : String) (d e : List String)
    (a : Option (List String)) :
    (∀ r, BaseExtractor.construct n b d e a = .ok r → ∃ l, r.args = some l ∧ "" ∉ l)
    ∧ (("" ∈ d ∨ "" ∈ e ∨ ∃ l0, a = some l0 ∧ "" ∈ l0) →
        ∃ msg, BaseExtractor.construct n b d e a = .error msg) := by
  constructor
  · intro r hr
    unfold BaseExtractor.construct at hr
    split at hr
    · cases hr
    · rename_i d2 hd
      split at hr
      · cases hr
      · rename_i e2 he
        split at hr
        · injection hr with hr2
          subst hr2
          refine ⟨d2 ++ e2, rfl, ?_⟩
          intro hmem
          rcases List.mem_append.mp hmem with hmd | hme
          · obtain ⟨heq, hdne⟩ := no_empty_args_ok d d2 hd
            rw [heq] at hmd
            exact hdne "" hmd rfl
          · obtain ⟨heq, hene⟩ := no_empty_args_ok e e2 he
            rw [heq] at hme
            exact hene "" hme rfl
        · split at hr
          · cases hr
          · rename_i v hv
            injection hr with hr2
            subst hr2
            refine ⟨v, rfl, ?_⟩
            intro hmem
            obtain ⟨heq, hvne⟩ := no_empty_args_ok _ v hv
            rw [heq] at hmem
            exact hvne "" hmem rfl
  · intro hbad
    unfold BaseExtractor.construct
    rcases hbad with hd | hbad2
    · rw [no_empty_args_error_of_mem d hd]
      exact ⟨_, rfl⟩
    · cases hcd : no_empty_args d with
      | error m => exact ⟨m, rfl⟩
      | ok d2 =>
        rcases hbad2 with he | ⟨l0, ha, hl0⟩
        · rw [no_empty_args_error_of_mem e he]
          exact ⟨_, rfl⟩
        · cases hce : no_empty_args e with
          | error m => exact ⟨m, rfl⟩
          | ok e2 =>
            subst ha
            show ∃ msg,
              (match no_empty_args l0 with
                | Except.error m => Except.error m
                | Except.ok v =>
                  Except.ok (BaseExtractor.validate_model
                    { name := n, binary := b, default_args := d2, extra_args := e2,
                      args := some v })) = Except.error msg
            rw [no_empty_args_error_of_mem l0 hl0]
            exact ⟨_, rfl⟩

/-- C2 witness: constructing with an empty string among the extra args fails. -/
theorem c2_witness :
    ∃ msg, BaseExtractor.construct "wget" "wget" ["--no-check-certificate"] [""] none
      = .error msg :=
  (c2_materialized_args_no_empty_string "wget" "wget" ["--no-check-certificate"] [""] none).2
    (Or.inr (Or.inl (by simp)))

/-- C5 (confirmed): `extract` is a total function of the subprocess outcome;
its status is "succeeded" exactly when the exit code is zero and "failed"
otherwise, and the exit code and (stripped) captured stdout and stderr are
stored structurally in the returned record — no exception path exists for a
non-zero exit. -/
theorem c5_extract_status_classification (e : BaseExtractor) (url : String)
    (proc : ProcResult) (files : List String) :
    ((BaseExtractor.extract e url proc files).status = "succeeded" ↔ proc.returncode = 0)
    ∧ ((BaseExtractor.extract e url proc files).status = "failed" ↔ proc.returncode ≠ 0)
    ∧ (BaseExtractor.extract e url proc files).returncode = proc.returncode
    ∧ (BaseExtractor.extract e url proc files).stdout = pyStrip proc.stdout
    ∧ (BaseExtractor.extract e url proc files).stderr = pyStrip proc.stderr := by
  unfold BaseExtractor.extract
  by_cases h : proc.returncode = 0 <;> simp [h]

/-- C8 (counterexample): with captured stdout "hello \n" the returned
output field is "hello", but the last non-empty line of the stdout is
"hello " — the code strips surrounding whitespace first, so the claim as
stated fails. -/
theorem c8_counterexample_output_field :
    (BaseExtractor.extract wgetExtractor "https://example.com"
        ⟨0, "hello \n", ""⟩ []).output ≠ lastNonEmptyLine "hello \n"
    ∧ (BaseExtractor.extract wgetExtractor "https://example.com"
        ⟨0, "hello \n", ""⟩ []).output = "hello"
    ∧ lastNonEmptyLine "hello \n" = "hello " := by
  decide

/-- C8 (amended): the output field of the returned result equals the last
non-empty line of the whitespace-stripped captured stdout (the empty string
when stdout is entirely whitespace). -/
theorem c8_amended_output_last_nonempty_of_stripped (e : BaseExtractor) (url : String)
    (proc : ProcResult) (files : List String) :
    (BaseExtractor.extract e url proc files).output = lastNonEmptyLine (pyStrip proc.stdout) :=
  congrArg String.mk (pyLastLineL_eq_lastNonEmpty proc.stdout.data)

/-- C4 (counterexample): with the LDAP library importable, a config that
enables LDAP but leaves the mandatory companion fields unset fails
construction with an assertion error, instead of succeeding downgraded as
the claim states. -/
theorem c4_counterexample_incomplete_enabled_fails :
    LdapConfig.validate_ldap_config { LDAP_ENABLED := true } true = .error ldapAssertMsg := by
  decide

/-- C4 (amended): enabling LDAP while the LDAP library is unavailable
downgrades the feature to disabled with a warning and construction
succeeds; enabling LDAP with the library available but any mandatory
companion field unset fails construction; with all companion fields set,
construction succeeds unchanged; a disabled config always validates. -/
theorem c4_amended_ldap_validation (c : LdapConfig) :
    (c.LDAP_ENABLED = true →
      LdapConfig.validate_ldap_config c false =
        .ok ({ c with LDAP_ENABLED := false }, [ldapMissingLibWarning]))
    ∧ (c.LDAP_ENABLED = true →
        (pyTruthyOpt c.LDAP_SERVER_URI && pyTruthyOpt c.LDAP_BIND_DN &&
          pyTruthyOpt c.LDAP_BIND_PASSWORD && pyTruthyOpt c.LDAP_USER_BASE &&
          pyTruthyOpt c.LDAP_USER_FILTER) = false →
        LdapConfig.validate_ldap_config c true = .error ldapAssertMsg)
    ∧ (c.LDAP_ENABLED = true →
        (pyTruthyOpt c.LDAP_SERVER_URI && pyTruthyOpt c.LDAP_BIND_DN &&
          pyTruthyOpt c.LDAP_BIND_PASSWORD && pyTruthyOpt c.LDAP_USER_BASE &&
          pyTruthyOpt c.LDAP_USER_FILTER) = true →
        LdapConfig.validate_ldap_config c true = .ok (c, []))
    ∧ (c.LDAP_ENABLED = false →
        ∀ lib, LdapConfig.validate_ldap_config c lib = .ok (c, [])) := by
  refine ⟨?_, ?_, ?_, ?_⟩
  · intro hen
    unfold LdapConfig.validate_ldap_config
    simp [hen]
  · intro hen hmiss
    unfold LdapConfig.validate_ldap_config
    simp [hen, hmiss]
  · intro hen hall
    unfold LdapConfig.validate_ldap_config
    simp [hen] at hall ⊢
    exact hall
  · intro hdis lib
    unfold LdapConfig.validate_ldap_config
    simp [hdis]

/-- C4 witness: a concrete enabled-but-library-missing config validates to
the downgraded config plus the warning. -/
theorem c4_witness :
    LdapConfig.validate_ldap_config { LDAP_ENABLED := true } false =
      .ok ({ LDAP_ENABLED := false }, [ldapMissingLibWarning]) :=
  (c4_amended_ldap_validation { LDAP_ENABLED := true }).1 rfl

/-- C10 (confirmed): the derived backend-list property returns exactly the
model backend followed by the LDAP backend for every field valuation,
including configs with the LDAP feature disabled. -/
theorem c10_auth_backends_constant (c : LdapConfig) :
    LdapConfig.AUTHENTICATION_BACKENDS c =
      ["django.contrib.auth.backends.ModelBackend", "django_auth_ldap.backend.LDAPBackend"]
    ∧ LdapConfig.AUTHENTICATION_BACKENDS { c with LDAP_ENABLED := false } =
      ["django.contrib.auth.backends.ModelBackend", "django_auth_ldap.backend.LDAPBackend"] :=
  ⟨rfl, rfl⟩

/-- C6 (confirmed): once a resolve call for "chrome" succeeds with path `p`
and cache `c2`, any later resolve call answers `p` from the cache alone —
the filesystem observations (and OS branch) of the second call are
irrelevant and the cache is unchanged — and resolution never removes or
rewrites an existing cache entry. -/
theorem c6_abspath_resolution_cached (isD : Bool) (fs : PwFs)
    (cache : List (String × String)) (p : String) (c2 : List (String × String))
    (h : default_abspath_handler isD fs cache "chrome" = .ok (some p, c2)) :
    (∀ (isD2 : Bool) (fs2 : PwFs),
        default_abspath_handler isD2 fs2 c2 "chrome" = .ok (some p, c2))
    ∧ (∀ k v, lookupC cache k = some v → lookupC c2 k = some v) := by
  unfold default_abspath_handler at h
  rw [if_neg (by simp)] at h
  cases hl : lookupC cache "chrome" with
  | some q =>
    rw [hl] at h
    simp only [Except.ok.injEq, Prod.mk.injEq, Option.some.injEq] at h
    obtain ⟨hqp, hcc⟩ := h
    subst hqp
    subst hcc
    constructor
    · intro isD2 fs2
      unfold default_abspath_handler
      rw [if_neg (by simp), hl]
    · intro k v hkv
      exact hkv
  | none =>
    rw [hl] at h
    cases hm : ((installed_browser_bins isD fs.globResults).filter
        (fun q => containsStr q "chrome")).getLast? with
    | some newest =>
      rw [hm] at h
      simp only [Except.ok.injEq, Prod.mk.injEq, Option.some.injEq] at h
      obtain ⟨hnp, hcc⟩ := h
      subst hnp
      subst hcc
      constructor
      · intro isD2 fs2
        unfold default_abspath_handler
        rw [if_neg (by simp)]
        simp [lookupC]
      · intro k v hkv
        by_cases hk : "chrome" = k
        · rw [← hk] at hkv
          rw [hl] at hkv
          cases hkv
        · simpa [lookupC, hk] using hkv
    | none =>
      rw [hm] at h
      cases hs : fs.systemChromeStable with
      | some ab =>
        rw [hs] at h
        simp only [Except.ok.injEq, Prod.mk.injEq, Option.some.injEq] at h
        obtain ⟨hap, hcc⟩ := h
        subst hap
        subst hcc
        constructor
        · intro isD2 fs2
          unfold default_abspath_handler
          rw [if_neg (by simp)]
          simp [lookupC]
        · intro k v hkv
          by_cases hk : "chrome" = k
          · rw [← hk] at hkv
            rw [hl] at hkv
            cases hkv
          · simpa [lookupC, hk] using hkv
      | none =>
        rw [hs] at h
        simp at h

/-- C6 witness: after a concrete first resolution from a one-candidate
filesystem, a second call with a completely different filesystem is
answered identically from the cache. -/
theorem c6_witness :
    default_abspath_handler true ⟨[], some "/usr/bin/google-chrome-stable"⟩
      [("chrome", "/pw/chromium-1010/chrome-linux/chrome")] "chrome" =
      .ok (some "/pw/chromium-1010/chrome-linux/chrome",
        [("chrome", "/pw/chromium-1010/chrome-linux/chrome")]) :=
  (c6_abspath_resolution_cached false ⟨["/pw/chromium-1010/chrome-linux/chrome"], none⟩ []
    "/pw/chromium-1010/chrome-linux/chrome"
    [("chrome", "/pw/chromium-1010/chrome-linux/chrome")] (by decide)).1 true
    ⟨[], some "/usr/bin/google-chrome-stable"⟩

/-- C7 (confirmed, for the non-darwin flat-binary branch): discovery never
yields a path mentioning `ffmpeg` or `xdg-settings`; on a cache miss with
remaining candidates, the handler returns the lexicographically greatest
candidate (the last element of the sorted candidate list); and with no
matching candidate it falls back to the search-path lookup of
`google-chrome-stable`, returning exactly that result. -/
theorem c7_browser_discovery (g : List String) (fs : PwFs)
    (cache : List (String × String)) :
    (∀ p ∈ installed_browser_bins false g,
        containsStr p "ffmpeg" = false ∧ containsStr p "xdg-settings" = false)
    ∧ (fs.globResults = g → lookupC cache "chrome" = none →
        (∀ m, ((installed_browser_bins false g).filter
              (fun p => containsStr p "chrome")).getLast? = some m →
            default_abspath_handler false fs cache "chrome" =
              .ok (some m, ("chrome", m) :: cache)
            ∧ m ∈ (installed_browser_bins false g).filter (fun p => containsStr p "chrome")
            ∧ ∀ c ∈ (installed_browser_bins false g).filter (fun p => containsStr p "chrome"),
                strLe c m = true)
        ∧ ((installed_browser_bins false g).filter (fun p => containsStr p "chrome") = [] →
            resolvedPath (default_abspath_handler false fs cache "chrome") =
              fs.systemChromeStable)) := by
  have hib : installed_browser_bins false g = (sortStrs g).filter browserBinFilter := by
    simp [installed_browser_bins]
  constructor
  · intro p hp
    rw [hib] at hp
    obtain ⟨hmem, hfil⟩ := List.mem_filter.mp hp
    unfold browserBinFilter at hfil
    simp only [Bool.and_eq_true, Bool.not_eq_true'] at hfil
    exact ⟨hfil.1.1.2, hfil.1.1.1⟩
  · intro hg hl
    constructor
    · intro m hm
      refine ⟨?_, List.mem_of_getLast?_eq_some hm, ?_⟩
      · unfold default_abspath_handler
        rw [if_neg (by simp), hl, hg, hm]
      · have hpair : ((installed_browser_bins false g).filter
            (fun p => containsStr p "chrome")).Pairwise (fun a b => strLe a b = true) := by
          rw [hib]
          exact ((pairwise_sortStrs g).sublist (List.filter_sublist _)).sublist
            (List.filter_sublist _)
        exact pairwise_getLast_max _ m hpair hm
    · intro hempty
      have hh : default_abspath_handler false fs cache "chrome" =
          (match fs.systemChromeStable with
            | some ab => .ok (some ab, ("chrome", ab) :: cache)
            | none => .ok (none, cache)) := by
        unfold default_abspath_handler
        rw [if_neg (by simp), hl, hg, hempty]
        rfl
      cases hs : fs.systemChromeStable with
      | some ab =>
        rw [hh, hs]
        rfl
      | none =>
        rw [hh, hs]
        rfl

/-- C7 witness: on a concrete glob with an ffmpeg candidate and two chromium
builds, the handler excludes ffmpeg and picks the lexicographically last of
the sorted remaining candidates. -/
theorem c7_witness :
    default_abspath_handler false
      ⟨["/pw/chromium-9/chrome-linux/chrome", "/pw/chromium-10/chrome-linux/chrome",
        "/pw/ffmpeg-1010/ffmpeg-linux/ffmpeg"], none⟩ [] "chrome" =
      .ok (some "/pw/chromium-9/chrome-linux/chrome",
        [("chrome", "/pw/chromium-9/chrome-linux/chrome")]) :=
  (((c7_browser_discovery
      ["/pw/chromium-9/chrome-linux/chrome", "/pw/chromium-10/chrome-linux/chrome",
        "/pw/ffmpeg-1010/ffmpeg-linux/ffmpeg"]
      ⟨["/pw/chromium-9/chrome-linux/chrome", "/pw/chromium-10/chrome-linux/chrome",
        "/pw/ffmpeg-1010/ffmpeg-linux/ffmpeg"], none⟩ []).2 rfl rfl).1
    "/pw/chromium-9/chrome-linux/chrome" (by decide)).1

theorem install_handler_fail (isD : Bool) (i dir : String) (xf : String → Bool)
    (pk : Option (List String)) (dp ip : ProcResult) (hrc : ip.returncode ≠ 0) :
    (default_install_handler isD true (some i) dir xf "chrome" pk dp ip).2 =
      .error (.installFailed ip.returncode (pk.getD ["chromium"])) := by
  unfold default_install_handler
  rw [if_neg (by simp), if_neg (by simp), if_pos hrc]

theorem install_handler_ok (isD : Bool) (i dir : String) (xf : String → Bool)
    (pk : Option (List String)) (dp ip : ProcResult) (hrc : ip.returncode = 0) :
    (default_install_handler isD true (some i) dir xf "chrome" pk dp ip).2 =
      .ok (installCombinedOutput ip, installCacheEntry dir xf "chrome" ip) := by
  have hn : ¬ ip.returncode ≠ 0 := fun h2 => h2 hrc
  unfold default_install_handler
  rw [if_neg (by simp), if_neg (by simp), if_neg hn]

/-- C3 (counterexample): a successful install whose captured stdout contains
no output-file reference to the target binary does not raise — the handler
returns the combined output with no cache entry, contradicting the claim
that an error is raised in that case. -/
theorem c3_counterexample_no_reference_no_raise :
    (default_install_handler false true (some "/usr/bin/playwright")
      "/root/.cache/ms-playwright" (fun _ => false) "chrome" none
      ⟨0, "", ""⟩ ⟨0, "done", ""⟩).2 = .ok ("done", none) := by
  decide

/-- C3 (amended): the dependency-installation sub-step never affects the
install outcome (its non-zero exit only adds printed diagnostics); the
package-install step raises an error naming the exit code and packages
(the captured output is printed, not attached) when the install subprocess
exits non-zero; and on a zero exit the handler returns the combined
stderr/stdout without raising, whether or not an output-file reference to
the target binary was found. -/
theorem c3_amended_install_handler (isD pip : Bool) (inst : Option String)
    (dir : String) (xf : String → Bool) (pk : Option (List String))
    (d1 d2 ip : ProcResult) :
    ((default_install_handler isD pip inst dir xf "chrome" pk d1 ip).2 =
      (default_install_handler isD pip inst dir xf "chrome" pk d2 ip).2)
    ∧ (pip = true → ∀ i, inst = some i → ip.returncode ≠ 0 →
        (default_install_handler isD pip inst dir xf "chrome" pk d1 ip).2 =
          .error (.installFailed ip.returncode (pk.getD ["chromium"])))
    ∧ (pip = true → ∀ i, inst = some i → ip.returncode = 0 →
        ∃ cached, (default_install_handler isD pip inst dir xf "chrome" pk d1 ip).2 =
          .ok (installCombinedOutput ip, cached)) := by
  refine ⟨?_, ?_, ?_⟩
  · cases pip with
    | false => rfl
    | true =>
      cases inst with
      | none => rfl
      | some i =>
        by_cases hrc : ip.returncode ≠ 0
        · rw [install_handler_fail isD i dir xf pk d1 ip hrc,
            install_handler_fail isD i dir xf pk d2 ip hrc]
        · have hrc0 : ip.returncode = 0 := not_not.mp hrc
          rw [install_handler_ok isD i dir xf pk d1 ip hrc0,
            install_handler_ok isD i dir xf pk d2 ip hrc0]
  · intro hpip i hinst hrc
    subst hpip
    subst hinst
    exact install_handler_fail isD i dir xf pk d1 ip hrc
  · intro hpip i hinst hrc0
    subst hpip
    subst hinst
    exact ⟨_, install_handler_ok isD i dir xf pk d1 ip hrc0⟩

/-- C3 witness: a failing install subprocess yields the raised error naming
the exit code and the requested packages. -/
theorem c3_witness :
    (default_install_handler false true (some "/usr/bin/playwright") "/pw"
      (fun _ => false) "chrome" none ⟨0, "", ""⟩ ⟨7, "boom", "err"⟩).2 =
      .error (.installFailed 7 ["chromium"]) :=
  (c3_amended_install_handler false true (some "/usr/bin/playwright") "/pw"
    (fun _ => false) none ⟨0, "", ""⟩ ⟨0, "", ""⟩ ⟨7, "boom", "err"⟩).2.1 rfl
    "/usr/bin/playwright" rfl (by decide)

/-- C9 (confirmed): both playwright handlers require the logical binary name
"chrome": any other name makes them fail the assertion (they never return a
not-found result), and under the precondition the assertion error is
unreachable. -/
theorem c9_chrome_only_assertion (bin_name : String) (isD : Bool) (fs : PwFs)
    (cache : List (String × String)) (inst : Option String) (dir : String)
    (xf : String → Bool) (pk : Option (List String)) (d ip : ProcResult) :
    (bin_name ≠ "chrome" →
        default_abspath_handler isD fs cache bin_name = .error .onlyChromeAssert
        ∧ (default_install_handler isD true inst dir xf bin_name pk d ip).2 =
            .error .onlyChromeAssert)
    ∧ (bin_name = "chrome" →
        default_abspath_handler isD fs cache bin_name ≠ .error .onlyChromeAssert
        ∧ (default_install_handler isD true inst dir xf bin_name pk d ip).2 ≠
            .error .onlyChromeAssert) := by
  constructor
  · intro hne
    constructor
    · unfold default_abspath_handler
      rw [if_pos hne]
    · unfold default_install_handler
      rw [if_neg (by simp), if_pos hne]
  · intro he
    subst he
    constructor
    · unfold default_abspath_handler
      rw [if_neg (by simp)]
      cases hl : lookupC cache "chrome" with
      | some p =>
        intro hc
        cases hc
      | none =>
        cases hm : ((installed_browser_bins isD fs.globResults).filter
            (fun q => containsStr q "chrome")).getLast? with
        | some newest =>
          intro hc
          cases hc
        | none =>
          cases hs : fs.systemChromeStable with
          | some ab =>
            intro hc
            cases hc
          | none =>
            intro hc
            cases hc
    · cases inst with
      | none =>
        intro hc
        have hval : (default_install_handler isD true none dir xf "chrome" pk d ip).2 =
            .error .installerNotFound := rfl
        rw [hval] at hc
        injection hc with h2
        cases h2
      | some i =>
        by_cases hrc : ip.returncode ≠ 0
        · intro hc
          rw [install_handler_fail isD i dir xf pk d ip hrc] at hc
          injection hc with h2
          cases h2
        · intro hc
          rw [install_handler_ok isD i dir xf pk d ip (not_not.mp hrc)] at hc
          cases hc

/-- C9 witness: resolving or installing the name "wget" through the
playwright provider fails the chrome-only assertion. -/
theorem c9_witness :
    default_abspath_handler false ⟨[], none⟩ [] "wget" = .error .onlyChromeAssert
    ∧ (default_install_handler false true none "/pw" (fun _ => false) "wget" none
        ⟨0, "", ""⟩ ⟨0, "", ""⟩).2 = .error .onlyChromeAssert :=
  (c9_chrome_only_assertion "wget" false ⟨[], none⟩ [] none "/pw" (fun _ => false) none
    ⟨0, "", ""⟩ ⟨0, "", ""⟩).1 (by decide)
